import Mathlib

/-!
# Verification of the archipelago_rs client core

A shallow embedding of the parts of the `archipelago_rs` crate that the
specification's claims are about, together with proofs settling each claim.

The Rust `HashMap` fields are embedded as association lists with
replace-on-insert semantics (`findVal` / `insertVal` below), mirroring how the
source only ever uses `get`, `insert`, `contains_key` and `len`.  `u64`
arithmetic is embedded over `Nat` with an explicit `% 2 ^ 64` at every
operation that can wrap.
-/

set_option autoImplicit false

deriving instance DecidableEq for Except

namespace Archipelago

/-- `2 ^ 64`, the modulus of Rust `u64` arithmetic. -/
def U64 : Nat := 2 ^ 64

/-! ## Association-list primitives (embedding of `HashMap` / `UstrMap`) -/

/-- Embedding of `HashMap::get`: the value bound to `k`, looking at the first
binding with that key. -/
def findVal {κ ν : Type} [DecidableEq κ] : List (κ × ν) → κ → Option ν
  | [], _ => none
  | p :: rest, k => if p.1 = k then some p.2 else findVal rest k

/-- Embedding of `HashMap::insert` (the resulting map): replaces the first
binding of `k` if present, otherwise appends a new binding. -/
def insertVal {κ ν : Type} [DecidableEq κ] : List (κ × ν) → κ → ν → List (κ × ν)
  | [], k, v => [(k, v)]
  | p :: rest, k, v => if p.1 = k then (k, v) :: rest else p :: insertVal rest k v

/-- The keys of an association list. -/
def keysOf {κ ν : Type} : List (κ × ν) → List κ := List.map Prod.fst

@[simp] theorem keysOf_nil {κ ν : Type} : keysOf ([] : List (κ × ν)) = [] := rfl

@[simp] theorem keysOf_cons {κ ν : Type} (p : κ × ν) (rest : List (κ × ν)) :
    keysOf (p :: rest) = p.1 :: keysOf rest := rfl

@[simp] theorem findVal_nil {κ ν : Type} [DecidableEq κ] (k : κ) :
    findVal ([] : List (κ × ν)) k = none := rfl

@[simp] theorem findVal_cons {κ ν : Type} [DecidableEq κ] (p : κ × ν)
    (rest : List (κ × ν)) (k : κ) :
    findVal (p :: rest) k = if p.1 = k then some p.2 else findVal rest k := rfl

@[simp] theorem insertVal_nil {κ ν : Type} [DecidableEq κ] (k : κ) (v : ν) :
    insertVal ([] : List (κ × ν)) k v = [(k, v)] := rfl

@[simp] theorem insertVal_cons {κ ν : Type} [DecidableEq κ] (p : κ × ν)
    (rest : List (κ × ν)) (k : κ) (v : ν) :
    insertVal (p :: rest) k v =
      if p.1 = k then (k, v) :: rest else p :: insertVal rest k v := rfl

theorem findVal_insertVal_self {κ ν : Type} [DecidableEq κ]
    (m : List (κ × ν)) (k : κ) (v : ν) : findVal (insertVal m k v) k = some v := by
  induction m with
  | nil => simp
  | cons p rest ih =>
    by_cases h : p.1 = k <;> simp [h, ih]

theorem findVal_insertVal_ne {κ ν : Type} [DecidableEq κ]
    (m : List (κ × ν)) (k k' : κ) (v : ν) (h : k' ≠ k) :
    findVal (insertVal m k v) k' = findVal m k' := by
  induction m with
  | nil => simp [Ne.symm h]
  | cons p rest ih =>
    by_cases hp : p.1 = k
    · subst hp
      simp [Ne.symm h]
    · by_cases hp' : p.1 = k' <;> simp [hp, hp', ih, h]

theorem keysOf_insertVal_of_mem {κ ν : Type} [DecidableEq κ]
    (m : List (κ × ν)) (k : κ) (v : ν) (h : (findVal m k).isSome) :
    keysOf (insertVal m k v) = keysOf m := by
  induction m with
  | nil => simp [findVal] at h
  | cons p rest ih =>
    by_cases hp : p.1 = k
    · simp [hp]
    · simp only [findVal_cons, hp, if_false] at h
      simp [hp, ih h]

theorem keysOf_insertVal_of_not_mem {κ ν : Type} [DecidableEq κ]
    (m : List (κ × ν)) (k : κ) (v : ν) (h : findVal m k = none) :
    keysOf (insertVal m k v) = keysOf m ++ [k] := by
  induction m with
  | nil => simp
  | cons p rest ih =>
    by_cases hp : p.1 = k
    · simp [hp] at h
    · simp only [findVal_cons, hp, if_false] at h
      simp [hp, ih h]

theorem findVal_eq_none_iff_not_mem_keysOf {κ ν : Type} [DecidableEq κ]
    (m : List (κ × ν)) (k : κ) : findVal m k = none ↔ k ∉ keysOf m := by
  induction m with
  | nil => simp
  | cons p rest ih =>
    simp only [findVal_cons, keysOf_cons, List.mem_cons]
    by_cases hp : p.1 = k
    · simp [hp]
    · have hk : ¬k = p.1 := fun hh => hp hh.symm
      simp [hp, hk, ih]

theorem nodup_keysOf_insertVal {κ ν : Type} [DecidableEq κ]
    (m : List (κ × ν)) (k : κ) (v : ν) (h : (keysOf m).Nodup) :
    (keysOf (insertVal m k v)).Nodup := by
  rcases ho : findVal m k with _ | w
  · rw [keysOf_insertVal_of_not_mem m k v ho]
    have hk : k ∉ keysOf m := (findVal_eq_none_iff_not_mem_keysOf m k).mp ho
    simp [List.nodup_append, h, hk]
  · rw [keysOf_insertVal_of_mem m k v (by simp [ho])]
    exact h

/-! ## Errors (`src/error.rs`) -/

/-- Embedding of `ArgumentError` from `src/error.rs`. -/
inductive ArgumentError : Type
  | missingGame
  | invalidLocation (location : Int) (game : String)
  | invalidSlot (slot : Nat)
  deriving DecidableEq, Repr

/-- Embedding of `ProtocolError` from `src/error.rs` (payloads kept only to the
precision the claims need). -/
inductive ProtocolError : Type
  | deserialize (json : String)
  | binaryMessage
  | unexpectedResponse (actual expected : String)
  | emptyPlayers
  | missingPlayer (team slot : Nat)
  | missingSlotInfo (slot : Nat)
  | missingGameData (game : String)
  | missingItem (id : Int) (game : String)
  | missingLocation (id : Int) (game : String)
  | responseWithoutRequest (what : String)
  deriving DecidableEq, Repr

/-- Embedding of the top-level `Error` from `src/error.rs`, restricted to the
variants the claims exercise. -/
inductive Error : Type
  | argumentError (e : ArgumentError)
  | protocolError (e : ProtocolError)
  deriving DecidableEq, Repr

/-! ## Protocol data (`src/protocol.rs`) -/

/-- Embedding of `Permission` from `src/protocol.rs`. -/
inductive Permission : Type
  | disabled | enabled | goal | auto | autoEnabled
  deriving DecidableEq, Repr

/-- Embedding of `PermissionMap` from `src/protocol.rs`. -/
structure PermissionMap : Type where
  release : Permission
  collect : Permission
  remaining : Permission
  deriving DecidableEq, Repr

/-- Embedding of `NetworkPlayer` from `src/protocol.rs`. -/
structure NetworkPlayer : Type where
  team : Nat
  slot : Nat
  «alias» : String
  name : String
  deriving DecidableEq, Repr

/-- Embedding of `NetworkItem` from `src/protocol.rs`.  `flags` is the raw
`u8` bitset. -/
structure NetworkItem : Type where
  item : Int
  location : Int
  player : Nat
  flags : Nat
  deriving DecidableEq, Repr

/-- Embedding of `SlotType` from `src/protocol.rs`. -/
inductive SlotType : Type
  | spectator | player | group
  deriving DecidableEq, Repr

/-- Embedding of `NetworkSlot` from `src/protocol.rs`. -/
structure NetworkSlot : Type where
  name : String
  game : String
  type : SlotType
  group_members : List Nat
  deriving DecidableEq, Repr

/-- Embedding of `GameData` from `src/protocol.rs`: name→id maps plus the
embedded checksum. -/
structure GameData : Type where
  item_name_to_id : List (String × Int)
  location_name_to_id : List (String × Int)
  checksum : String
  deriving DecidableEq, Repr

/-- Embedding of `RoomInfo` from `src/protocol.rs` (the fields `Client::new`
reads). -/
structure RoomInfo : Type where
  version : Nat × Nat × Nat
  generator_version : Nat × Nat × Nat
  tags : List String
  password_required : Bool
  permissions : PermissionMap
  hint_cost : Nat
  location_check_points : Nat
  seed_name : String
  deriving DecidableEq, Repr

/-- Embedding of `Connected` from `src/protocol.rs` (slot data, an opaque
caller-typed blob, is omitted). -/
structure Connected : Type where
  team : Nat
  slot : Nat
  players : List NetworkPlayer
  missing_locations : List Int
  checked_locations : List Int
  slot_info : List (Nat × NetworkSlot)
  hint_points : Nat
  deriving DecidableEq, Repr

/-- Embedding of `RoomUpdate` from `src/protocol.rs`. -/
structure RoomUpdate : Type where
  tags : Option (List String)
  permissions : Option PermissionMap
  hint_cost : Option Nat
  location_check_points : Option Nat
  hint_points : Option Nat
  players : Option (List NetworkPlayer)
  checked_locations : Option (List Int)
  deriving DecidableEq, Repr

/-! ## Data model (`src/data/...`) -/

/-- Embedding of `Item` from `src/data/item.rs`: `{ id, name, owning game }`. -/
structure Item : Type where
  id : Int
  name : String
  game : String
  deriving DecidableEq, Repr

/-- Embedding of `Location` from `src/data/location.rs`. -/
structure Location : Type where
  id : Int
  name : String
  game : String
  deriving DecidableEq, Repr

/-- `Location::cheat_console()` from `src/data/location.rs`. -/
def Location.cheatConsole : Location := ⟨-1, "Cheat Console", "Archipelago"⟩

/-- `Location::server()` from `src/data/location.rs`. -/
def Location.server : Location := ⟨-2, "Server", "Archipelago"⟩

/-- `Location::well_known` from `src/data/location.rs`. -/
def Location.wellKnown (id : Int) : Option Location :=
  if id = -1 then some Location.cheatConsole
  else if id = -2 then some Location.server
  else none

/-- Embedding of `Player` from `src/data/player.rs`. -/
structure Player : Type where
  team : Nat
  slot : Nat
  «alias» : String
  name : String
  game : String
  deriving DecidableEq, Repr

/-- `Player::hydrate(network, game)` as used by `src/client.rs` (builds a
player from a `NetworkPlayer` plus the resolved game name). -/
def Player.hydrate (network : NetworkPlayer) (game : String) : Player :=
  ⟨network.team, network.slot, network.«alias», network.name, game⟩

/-- Embedding of `Game` from `src/data/game.rs`.  The `items_by_id` /
`locations_by_id` hash maps are embedded as id→name association lists. -/
structure Game : Type where
  name : String
  items : List (Int × String)
  locations : List (Int × String)
  deriving DecidableEq, Repr

/-- `Game::hydrate` from `src/data/game.rs`: invert the data package's
name→id maps into by-id maps. -/
def Game.hydrate (name : String) (network : GameData) : Game :=
  { name := name
    items := network.item_name_to_id.map (fun p => (p.2, p.1))
    locations := network.location_name_to_id.map (fun p => (p.2, p.1)) }

/-- `Game::archipelago` from `src/data/game.rs`: the reserved pseudo-game with
only the two universal locations. -/
def Game.archipelago : Game :=
  ⟨"Archipelago", [], [(-1, "Cheat Console"), (-2, "Server")]⟩

/-- `Game::has_location` from `src/data/game.rs`. -/
def Game.hasLocation (g : Game) (id : Int) : Bool := (findVal g.locations id).isSome

/-- `Game::location` from `src/data/game.rs`. -/
def Game.location? (g : Game) (id : Int) : Option Location :=
  (findVal g.locations id).map (fun n => ⟨id, n, g.name⟩)

/-- `Game::location_or_err` from `src/data/game.rs`, at the `ProtocolError`
level (the source wraps the same payload into the top-level `Error`). -/
def Game.locationOrErrP (g : Game) (id : Int) : Except ProtocolError Location :=
  match g.location? id with
  | some l => .ok l
  | none => .error (.missingLocation id g.name)

/-- `Game::location_or_err` from `src/data/game.rs`. -/
def Game.location_or_err (g : Game) (id : Int) : Except Error Location :=
  (g.locationOrErrP id).mapError .protocolError

/-- `Game::verify_location` from `src/data/game.rs`. -/
def Game.verify_location (g : Game) (id : Int) : Except Error Unit :=
  match findVal g.locations id with
  | some _ => .ok ()
  | none => .error (.protocolError (.missingLocation id g.name))

/-- `Game::item` from `src/data/game.rs`. -/
def Game.item? (g : Game) (id : Int) : Option Item :=
  (findVal g.items id).map (fun n => ⟨id, n, g.name⟩)

/-- `Game::item_or_err` from `src/data/game.rs`. -/
def Game.item_or_err (g : Game) (id : Int) : Except Error Item :=
  match g.item? id with
  | some i => .ok i
  | none => .error (.protocolError (.missingItem id g.name))

/-- Embedding of `LocatedItem` from `src/data/located_item.rs`. -/
structure LocatedItem : Type where
  item : Item
  location : Location
  sender : Player
  receiver : Player
  flags : Nat
  deriving DecidableEq, Repr

/-- `LocatedItem::hydrate_with_games` from `src/data/located_item.rs`:
the item is looked up in `receiver_game`, the location in `sender_game`
(unless it is one of the two universal locations). -/
def LocatedItem.hydrate_with_games (network : NetworkItem)
    (sender receiver : Player) (sender_game receiver_game : Game) :
    Except Error LocatedItem := do
  let item ← receiver_game.item_or_err network.item
  let location ←
    match Location.wellKnown network.location with
    | some location => pure location
    | none => sender_game.location_or_err network.location
  pure ⟨item, location, sender, receiver, network.flags⟩

/-- The three `debug_assert!` conditions at the top of
`LocatedItem::hydrate_with_games`, as one boolean. -/
def LocatedItem.hydrateDebugAsserts (network : NetworkItem)
    (sender receiver : Player) (sender_game receiver_game : Game) : Bool :=
  (network.player = sender.slot || network.player = receiver.slot) &&
    sender.game = sender_game.name && receiver.game = receiver_game.name

/-! ## Session state (`src/client.rs`) -/

/-- Embedding of the session-state fields of `Client` from `src/client.rs`.
The `game: *const Game` pointer is embedded by storing the pointed-to game
directly in `thisGame`; the socket and the pending one-shot sender queues are
modelled separately (see `PendingState` below). -/
structure ClientState : Type where
  thisGame : Game
  server_version : Nat × Nat × Nat
  generator_version : Nat × Nat × Nat
  server_tags : List String
  password_required : Bool
  permissions : PermissionMap
  hint_cost_percentage : Nat
  hint_points_per_check : Nat
  hint_points : Nat
  seed_name : String
  games : List (String × Game)
  groups : List NetworkSlot
  players : List ((Nat × Nat) × Player)
  player_key : Nat × Nat
  teams : Nat
  local_locations_checked : List (Int × Bool)
  deriving DecidableEq, Repr

namespace ClientState

/-- `Client::points_per_hint` from `src/client.rs`:
`local_locations_checked.len() as u64 * u64::from(hint_cost_percentage) / 100`
(the `u64` product wraps). -/
def points_per_hint (st : ClientState) : Nat :=
  st.local_locations_checked.length * st.hint_cost_percentage % U64 / 100

/-- The number of locations reported by `Client::checked_locations` (the
entries of the local map whose value is `true`). -/
def checkedCount (st : ClientState) : Nat :=
  (st.local_locations_checked.filter (fun p => p.2)).length

/-- `Client::is_local_location_checked` from `src/client.rs`; `none` embeds
the panic on an id absent from the local map. -/
def is_local_location_checked (st : ClientState) (id : Int) : Option Bool :=
  findVal st.local_locations_checked id

/-- `Client::game` from `src/client.rs`: looks up `games` and falls back to
the reserved Archipelago game. -/
def game? (st : ClientState) (name : String) : Option Game :=
  match findVal st.games name with
  | some g => some g
  | none => if name = Game.archipelago.name then some Game.archipelago else none

/-- `Client::game_or_err` from `src/client.rs`. -/
def game_or_err (st : ClientState) (name : String) : Except Error Game :=
  match st.game? name with
  | some g => .ok g
  | none => .error (.protocolError (.missingGameData name))

/-- `Client::teammate_arc` from `src/client.rs`: the player in the current
team's slot, or `MissingPlayer`. -/
def teammate_arc (st : ClientState) (slot : Nat) : Except Error Player :=
  match findVal st.players (st.player_key.1, slot) with
  | some p => .ok p
  | none => .error (.protocolError (.missingPlayer st.player_key.1 slot))

/-- The per-id closure inside `Client::verify_local_locations`: the id when
the current game has the location, `ArgumentError::InvalidLocation`
otherwise. -/
def verifyLocalLocation (st : ClientState) (id : Int) :
    Except ArgumentError Int :=
  if st.thisGame.hasLocation id then .ok id
  else .error (.invalidLocation id st.thisGame.name)

/-- `Client::verify_local_locations` from `src/client.rs`: each id must be a
location of the current game; the first invalid id aborts with
`ArgumentError::InvalidLocation`. -/
def verify_local_locations (st : ClientState) (locations : List Int) :
    Except ArgumentError (List Int) :=
  locations.mapM st.verifyLocalLocation

/-- The `for id in locations` loop at the end of `Client::mark_checked`:
insert `true` for each id; when the value the insert replaced was
`Some(false)` (read here with `findVal` before the insert), credit
`hint_points_per_check` to `hint_points` (wrapping `u64` addition). -/
def markLoop (c : Nat) : List Int → List (Int × Bool) × Nat → List (Int × Bool) × Nat
  | [], s => s
  | id :: rest, (m, pts) =>
    markLoop c rest
      (insertVal m id true,
        if findVal m id = some false then (pts + c) % U64 else pts)

/-- `Client::mark_checked` from `src/client.rs`.  The result is the new state,
the payload of the `LocationChecks` message if one was sent, and the error if
validation failed (in which case nothing is sent and the state is returned
unchanged, mirroring the early `?` return). -/
def mark_checked (st : ClientState) (locations : List Int) :
    ClientState × Option (List Int) × Option ArgumentError :=
  match st.verify_local_locations locations with
  | .error e => (st, none, some e)
  | .ok locs =>
    let (m, pts) :=
      markLoop st.hint_points_per_check locs (st.local_locations_checked, st.hint_points)
    ({ st with local_locations_checked := m, hint_points := pts }, some locs, none)

end ClientState

/-! ## `Client::update_room` (`src/client.rs`) -/

/-- Embedding of `UpdatedField` from `src/event.rs` as produced by
`Client::update_room` (each variant carries the *previous* values). -/
inductive UpdatedField : Type
  | serverTags (old : List String)
  | permissions (release collect remaining : Permission)
  | hintEconomy (points_per_hint hint_points_per_check : Nat)
  | hintPoints (old : Nat)
  | players (replaced : List Player)
  | checkedLocations (locations : List Location)
  deriving DecidableEq, Repr

/-- The outcome of `Client::update_room`: `panicked` embeds the `unwrap`
panic in the checked-locations dedupe step, `err` the early `?` returns
(which leave the state untouched), and `ok` the normal return with the
`Event::Updated` payload. -/
inductive UpdateRoomResult : Type
  | panicked
  | err (st : ClientState) (e : ProtocolError)
  | ok (st : ClientState) (fields : List UpdatedField)
  deriving DecidableEq, Repr

/-- The `players` validation pass of `Client::update_room`: every entry must
name an existing `(team, slot)`; entries whose alias is unchanged are dropped,
the rest are re-hydrated with the stored player's game. -/
def validateRoomPlayers (st : ClientState) :
    List NetworkPlayer → Except ProtocolError (List Player)
  | [] => .ok []
  | new :: rest =>
    match findVal st.players (new.team, new.slot) with
    | none => .error (.missingPlayer new.team new.slot)
    | some old => do
      let tail ← validateRoomPlayers st rest
      if old.«alias» = new.«alias» then pure tail
      else pure (Player.hydrate new old.game :: tail)

/-- The checked-locations mutation step of `Client::update_room`: insert
`true` for each location, keep the ones whose previous value was `false`, and
panic (`none`) when `insert` returned `None` (id absent from the local map). -/
def dedupeCheckedLocations :
    List (Int × Bool) → List Location → Option (List (Int × Bool) × List Location)
  | m, [] => some (m, [])
  | m, loc :: rest =>
    match findVal m loc.id with
    | none => none
    | some prev =>
      match dedupeCheckedLocations (insertVal m loc.id true) rest with
      | none => none
      | some (m'', kept) => some (m'', if prev then kept else loc :: kept)

/-- The players mutation step of `Client::update_room`: insert each
re-hydrated player and collect the replaced ones. -/
def applyRoomPlayers :
    List ((Nat × Nat) × Player) → List Player →
      List ((Nat × Nat) × Player) × List Player
  | ps, [] => (ps, [])
  | ps, p :: rest =>
    let old := findVal ps (p.team, p.slot)
    let ps' := insertVal ps (p.team, p.slot) p
    let (ps'', replaced) := applyRoomPlayers ps' rest
    (ps'', match old with | some o => o :: replaced | none => replaced)

/-- `Client::update_room` from `src/client.rs`: validate `checked_locations`
and `players` first (any failure returns the error with the state untouched),
then apply each present field in source order, collecting `UpdatedField`s. -/
def Client.update_room (st : ClientState) (update : RoomUpdate) : UpdateRoomResult :=
  -- Validation phase (before any mutation).
  match update.checked_locations.mapM (fun ids => ids.mapM st.thisGame.locationOrErrP) with
  | .error e => .err st e
  | .ok checked_locations =>
    match update.players.mapM (validateRoomPlayers st) with
    | .error e => .err st e
    | .ok updated_players =>
      -- Mutation phase.
      let (st, updated) :=
        match update.tags with
        | some tags =>
          ({ st with server_tags := tags }, [UpdatedField.serverTags st.server_tags])
        | none => (st, [])
      let (st, updated) :=
        match update.permissions with
        | some permissions =>
          ({ st with permissions := permissions },
            updated ++ [UpdatedField.permissions st.permissions.release
              st.permissions.collect st.permissions.remaining])
        | none => (st, updated)
      let (st, updated) :=
        if update.hint_cost.isSome || update.location_check_points.isSome then
          ({ st with
              hint_cost_percentage := update.hint_cost.getD st.hint_cost_percentage,
              hint_points_per_check :=
                update.location_check_points.getD st.hint_points_per_check },
            updated ++ [UpdatedField.hintEconomy st.points_per_hint
              st.hint_points_per_check])
        else (st, updated)
      let (st, updated) :=
        match update.hint_points with
        | some hint_points =>
          ({ st with hint_points := hint_points },
            updated ++ [UpdatedField.hintPoints st.hint_points])
        | none => (st, updated)
      let (st, updated) :=
        match updated_players with
        | some players =>
          let (ps, replaced) := applyRoomPlayers st.players players
          ({ st with players := ps }, updated ++ [UpdatedField.players replaced])
        | none => (st, updated)
      match checked_locations with
      | some locations =>
        match dedupeCheckedLocations st.local_locations_checked locations with
        | none => .panicked
        | some (m, kept) =>
          .ok { st with local_locations_checked := m }
            (updated ++ [UpdatedField.checkedLocations kept])
      | none => .ok st updated

/-! ## `Client::new` (`src/client.rs`) -/

/-- The per-player game resolution inside `Client::new`: look the slot up in
the remaining (non-group) `slot_info`, else in any group containing it. -/
def resolvePlayerGame (slot_info : List (Nat × NetworkSlot))
    (groups : List NetworkSlot) (slot : Nat) : Except Error String :=
  match (findVal slot_info slot).orElse
      (fun _ => groups.find? (fun s => s.group_members.contains slot)) with
  | some s => .ok s.game
  | none => .error (.protocolError (.missingSlotInfo slot))

/-- `Client::new` from `src/client.rs` (minus the socket): validates the
handshake data and produces the initial session state. -/
def Client.new (game : String) (room_info : RoomInfo)
    (data_package : List (String × GameData)) (connected : Connected) :
    Except Error ClientState := do
  let teams ←
    match (connected.players.map (·.team)).max? with
    | some t => .ok t
    | none => .error (Error.protocolError .emptyPlayers)
  let groups := (connected.slot_info.filter (fun p => p.2.type = SlotType.group)).map (·.2)
  let slot_info := connected.slot_info.filter (fun p => ¬p.2.type = SlotType.group)
  for g in groups do
    for member in g.group_members do
      if (findVal slot_info member).isNone then
        throw (Error.protocolError (.missingSlotInfo member))
  let players ← connected.players.mapM (fun p => do
    let game ← resolvePlayerGame slot_info groups p.slot
    let player := Player.hydrate p game
    pure ((player.team, player.slot), player))
  let player_key := (connected.team, connected.slot)
  if (findVal players player_key).isNone then
    throw (Error.protocolError (.missingPlayer connected.team connected.slot))
  let games := data_package.map (fun p => (p.1, Game.hydrate p.1 p.2))
  let this_game ←
    match findVal games game with
    | some g => pure g
    | none => throw (Error.protocolError (.missingGameData game))
  let mut local_locations_checked : List (Int × Bool) := []
  for id in connected.missing_locations do
    let _ ← this_game.verify_location id
    local_locations_checked := insertVal local_locations_checked id false
  for id in connected.checked_locations do
    let _ ← this_game.verify_location id
    local_locations_checked := insertVal local_locations_checked id true
  pure
    { thisGame := this_game
      server_version := room_info.version
      generator_version := room_info.generator_version
      server_tags := room_info.tags
      password_required := room_info.password_required
      permissions := room_info.permissions
      hint_cost_percentage := room_info.hint_cost
      hint_points_per_check := room_info.location_check_points
      hint_points := connected.hint_points
      seed_name := room_info.seed_name
      games := games
      groups := groups
      players := players
      player_key := player_key
      teams := teams
      local_locations_checked := local_locations_checked }

/-! ## The `LocationInfo` arm of `Client::update` (`src/client.rs`) -/

/-- The hydration performed by the `ServerMessage::LocationInfo` arm of
`Client::update` (`src/client.rs`, lines 754–771): `sender` is the current
player, `sender_game` is `this_game()`, `receiver` is the teammate named by
the entry's `player` field, and `receiver_game` is looked up from
`sender.game()` (sic — this is the line under scrutiny).  The outer `none`
embeds the panic of `self.players[&self.player_key]` when the key is absent. -/
def Client.hydrateLocationInfo (st : ClientState) (locations : List NetworkItem) :
    Option (Except Error (List LocatedItem)) :=
  match findVal st.players st.player_key with
  | none => none
  | some sender =>
    let sender_game := st.thisGame
    some (locations.mapM (fun network => do
      let receiver ← st.teammate_arc network.player
      let receiver_game ← st.game_or_err sender.game
      LocatedItem.hydrate_with_games network sender receiver sender_game receiver_game))

/-! ## Pending-completion FIFO queues (`src/client.rs`)

`Client.location_scout_senders` and `Client.get_senders` are `VecDeque`s of
one-shot senders.  `scout_locations` / `get` `push_back` a sender exactly when
the request was sent successfully; the `LocationInfo` / `Retrieved` arms of
`Client::update` `pop_front` and fulfill, or emit a `ResponseWithoutRequest`
error when the queue is empty.  The model numbers the successfully-sent
requests `0, 1, 2, …` and records which request each arriving response
fulfilled. -/

/-- One step of the pending-queue discipline: a request send (queued iff the
verify-and-send succeeded) or a matching response arrival. -/
inductive PendingEvent : Type
  | request (sendOk : Bool)
  | response
  deriving DecidableEq, Repr

/-- The observable state of one pending-completion queue. -/
structure PendingState : Type where
  /-- The queued senders, identified by their request number, front first. -/
  queue : List Nat
  /-- How many requests have been queued so far. -/
  sent : Nat
  /-- The request numbers fulfilled so far, in response-arrival order. -/
  resolved : List Nat
  /-- The `ResponseWithoutRequest` protocol-error events emitted so far. -/
  errors : List ProtocolError
  deriving DecidableEq, Repr

/-- The queue starts empty (`Default::default()` in `Client::new`). -/
def PendingState.init : PendingState := ⟨[], 0, [], []⟩

/-- `push_back` on request (when the send succeeded) and `pop_front` on
response, with `ResponseWithoutRequest` on an empty queue.  `what` is
`"LocationInfo"` for the scout queue and `"Get"` for the get queue. -/
def pendingStep (what : String) (m : PendingState) : PendingEvent → PendingState
  | .request true => { m with queue := m.queue ++ [m.sent], sent := m.sent + 1 }
  | .request false => m
  | .response =>
    match m.queue with
    | [] => { m with errors := m.errors ++ [.responseWithoutRequest what] }
    | r :: rest => { m with queue := rest, resolved := m.resolved ++ [r] }

/-- Run a whole event sequence from the initial state. -/
def pendingRun (what : String) (es : List PendingEvent) : PendingState :=
  es.foldl (pendingStep what) PendingState.init

/-! ## Connection state machine (`src/connection.rs`) -/

/-- Embedding of `ConnectionStateType` from `src/connection.rs`. -/
inductive ConnectionStateType : Type
  | connecting | connected | disconnected
  deriving DecidableEq, Repr

/-- The position of a state in the `Connecting → Connected → Disconnected`
order. -/
def ConnectionStateType.rank : ConnectionStateType → Nat
  | .connecting => 0
  | .connected => 1
  | .disconnected => 2

/-- Embedding of `ConnectionStateTransition` from `src/connection.rs`. -/
structure ConnectionStateTransition : Type where
  old : ConnectionStateType
  new : ConnectionStateType
  deriving DecidableEq, Repr

/-- The environment's contribution to one `Connection::update` call: whether
`client.update()` succeeded (in the `Connected` state), and which state
`Connecting::update` produced (in the `Connecting` state; the source can
return any of the three). -/
structure ConnectionUpdateInput : Type where
  clientOk : Bool
  connectingResult : ConnectionStateType
  deriving DecidableEq, Repr

/-- `Connection::update` from `src/connection.rs`, at the state-type level:
`Connected` stays or fails to `Disconnected`; `Disconnected` is absorbing;
`Connecting` moves to whatever `Connecting::update` returned, reporting a
transition iff the state type changed. -/
def Connection.update (st : ConnectionStateType) (inp : ConnectionUpdateInput) :
    ConnectionStateType × Option ConnectionStateTransition :=
  match st with
  | .connected =>
    if inp.clientOk then (.connected, none)
    else (.disconnected, some ⟨.connected, .disconnected⟩)
  | .disconnected => (.disconnected, none)
  | .connecting =>
    let new := inp.connectingResult
    (new, if new = .connecting then none else some ⟨.connecting, new⟩)

/-- Iterated `Connection::update`, keeping only the state. -/
def Connection.run (st : ConnectionStateType) (inputs : List ConnectionUpdateInput) :
    ConnectionStateType :=
  inputs.foldl (fun s i => (Connection.update s i).1) st

/-! ## Frame decoding (`src/connection/socket.rs`) -/

/-- The batch decode in `Socket::try_recv`
(`serde_json::from_str::<VecDeque<ServerMessage>>(&bytes)`): each element of
the inbound JSON array either decodes to a message (`some`) or fails
(`none`); serde aborts the whole array at the first failing element. -/
def decodeFrame {α : Type} (elems : List (Option α)) : Except ProtocolError (List α) :=
  match elems.mapM id with
  | some msgs => .ok msgs
  | none => .error (.deserialize "batch")

/-- `Socket::try_recv` from `src/connection/socket.rs` over buffered messages
and pending inbound text frames: pop a buffered message if any; otherwise
decode the next frame (recursing past empty frames), returning its decode
error if it fails.  Result: new buffer, remaining frames, and the outcome. -/
def Socket.try_recv {α : Type} :
    List α → List (List (Option α)) →
      List α × List (List (Option α)) × Except ProtocolError (Option α)
  | m :: rest, frames => (rest, frames, .ok (some m))
  | [], [] => ([], [], .ok none)
  | [], f :: fs =>
    match decodeFrame f with
    | .ok msgs => Socket.try_recv msgs fs
    | .error e => ([], fs, .error e)

/-! ## URL resolution (`src/connection.rs`, `src/connection/socket.rs`,
`src/connection/non_blocking_web_socket.rs`) -/

/-- The scheme check at the top of `Connection::new`
(`src/connection.rs`, line 60):
`url.starts_with("ws://") || url.starts_with("wss://")` (expressed over the
character list so the kernel can evaluate it). -/
def connectionNewAcceptsUrl (url : String) : Bool :=
  "ws://".data.isPrefixOf url.data || "wss://".data.isPrefixOf url.data

/-- What `Connection::new` does with the URL before anything touches the
network. -/
inductive ConnectionNewOutcome : Type
  | noProtocolError (url : String)
  | proceeds (url : String)
  deriving DecidableEq, Repr

/-- `Connection::new` from `src/connection.rs`: a URL that does not start
with `ws://` or `wss://` puts the connection straight into
`Disconnected(Error::NoProtocolError(url))`. -/
def Connection.newUrlCheck (url : String) : ConnectionNewOutcome :=
  if connectionNewAcceptsUrl url then .proceeds url else .noProtocolError url

/-- The port resolution in `Socket::connect` (`src/connection/socket.rs`,
lines 56–64): explicit port, else 443 for `wss` and 80 for `ws`, else
`UrlError::UnsupportedUrlScheme`. -/
def Socket.connectPort (port_u16 : Option Nat) (scheme : Option String) :
    Except String Nat :=
  match port_u16 with
  | some p => .ok p
  | none =>
    match scheme with
    | some "wss" => .ok 443
    | some "ws" => .ok 80
    | _ => .error "UnsupportedUrlScheme"

/-- The port resolution in `NonBlockingWebSocket::connect`
(`src/connection/non_blocking_web_socket.rs`, line 40):
`request.uri().port_u16().unwrap_or(DEFAULT_PORT)` with `DEFAULT_PORT = 38281`. -/
def NonBlockingWebSocket.port (port_u16 : Option Nat) : Nat :=
  port_u16.getD 38281

/-- `tungstenite::stream::Mode` as decided by `uri_mode`. -/
inductive UriMode : Type
  | plain | tls
  deriving DecidableEq, Repr

/-- `tungstenite::client::uri_mode`: `wss` is TLS, `ws` is plain, anything
else (including an absent scheme) is `UnsupportedUrlScheme`. -/
def uriMode (scheme : Option String) : Except String UriMode :=
  match scheme with
  | some "wss" => .ok .tls
  | some "ws" => .ok .plain
  | _ => .error "UnsupportedUrlScheme"

/-- Outcome of the TLS handshake attempt in
`NonBlockingWebSocket::try_tls`. -/
inductive TlsOutcome : Type
  | success | tlsError | otherError
  deriving DecidableEq, Repr

/-- The kind of stream the WebSocket handshake then runs over. -/
inductive StreamKind : Type
  | plain | nativeTls
  deriving DecidableEq, Repr

/-- The stream selection of `NonBlockingWebSocket::connect`
(`src/connection/non_blocking_web_socket.rs`, lines 44–68): plain mode uses
TCP directly; TLS mode uses the TLS stream on success, reconnects plain TCP
when the failure was a TLS error, and propagates any other error. -/
def NonBlockingWebSocket.selectStream :
    UriMode → TlsOutcome → Except String StreamKind
  | .plain, _ => .ok .plain
  | .tls, .success => .ok .nativeTls
  | .tls, .tlsError => .ok .plain
  | .tls, .otherError => .error "tls"

/-! ## Datapackage cache (`src/cache.rs`, `src/util.rs`)

The filesystem is embedded as a set of directories plus a map from paths to
file contents; paths are component lists relative to the cache root, and file
contents are kept as tagged values (`serde_json::to_string` /
`serde_json::from_str` of a `GameData` become the `gameData` tag, anything
that does not deserialize is `raw`). -/

/-- A filesystem path, as components relative to the cache root. -/
abbrev FsPath := List String

/-- Abstracted file contents. -/
inductive FileData : Type
  | gameData (gd : GameData)
  | raw (s : String)
  deriving DecidableEq, Repr

/-- The filesystem state. -/
structure FileSystem : Type where
  dirs : List FsPath
  files : List (FsPath × FileData)
  deriving DecidableEq, Repr

/-- The cache root: the root directory exists and nothing else. -/
def FileSystem.emptyRoot : FileSystem := ⟨[[]], []⟩

/-- The `io::Error` kinds the model distinguishes. -/
inductive IoError : Type
  | isDirectory | notFound | alreadyExists
  deriving DecidableEq, Repr

/-- Every prefix of a path, from the root down. -/
def prefixesOf (p : FsPath) : List FsPath :=
  (List.range (p.length + 1)).map p.take

/-- `smol::fs::write`: fails on a directory path or a missing parent
directory; otherwise creates or overwrites the file. -/
def FileSystem.write (fs : FileSystem) (p : FsPath) (contents : FileData) :
    Except IoError FileSystem :=
  if fs.dirs.contains p then .error .isDirectory
  else if ¬fs.dirs.contains p.dropLast then .error .notFound
  else .ok { fs with files := insertVal fs.files p contents }

/-- `smol::fs::rename` for a source file (the only case the code can reach):
moves the contents to the destination path. -/
def FileSystem.rename (fs : FileSystem) (src dst : FsPath) :
    Except IoError FileSystem :=
  match findVal fs.files src with
  | none => .error .notFound
  | some contents =>
    .ok { fs with
      files := insertVal (fs.files.filter (fun q => ¬q.1 = src)) dst contents }

/-- `smol::fs::read_to_string`. -/
def FileSystem.read (fs : FileSystem) (p : FsPath) : Except IoError FileData :=
  match findVal fs.files p with
  | some contents => .ok contents
  | none => .error .notFound

/-- `smol::fs::create_dir_all`: creates every missing ancestor; fails if a
component already exists as a file. -/
def FileSystem.createDirAll (fs : FileSystem) (p : FsPath) :
    Except IoError FileSystem :=
  if (prefixesOf p).any (fun q => (findVal fs.files q).isSome) then
    .error .alreadyExists
  else
    .ok { fs with
      dirs := fs.dirs ++ (prefixesOf p).filter (fun q => ¬fs.dirs.contains q) }

/-- `write_file_atomic` from `src/util.rs`, translated faithfully: `tmp_path`
is the input path with its last component popped; the source then computes a
`tmp_basename` (file stem + `"-tmp-"` + a random number + extension) **but
never pushes it onto `tmp_path`**, so the write targets the parent directory
itself, and on success the parent would be renamed over the target. -/
def write_file_atomic (rand : Nat) (fs : FileSystem) (path : FsPath)
    (contents : FileData) : Except IoError FileSystem := do
  let tmp_path := path.dropLast
  let _tmp_basename := (path.getLast?.getD "") ++ "-tmp-" ++ toString rand
  let fs ← fs.write tmp_path contents
  fs.rename tmp_path path

/-- `Cache::store_data_packages` from `src/cache.rs`: for each game create
`datapackage/<game>`, serialize (which always succeeds for `GameData`), and
hand the serialized data to `write_file_atomic` targeting
`<checksum>.json`; a directory-creation failure aborts the whole store, a
write failure is logged and skipped. -/
def Cache.store_data_packages (rand : Nat) (fs : FileSystem)
    (data_packages : List (String × GameData)) : FileSystem :=
  match data_packages with
  | [] => fs
  | (game, data) :: rest =>
    let game_dir : FsPath := ["datapackage", game]
    match fs.createDirAll game_dir with
    | .error _ => fs
    | .ok fs' =>
      let path := game_dir ++ [data.checksum ++ ".json"]
      match write_file_atomic rand fs' path (.gameData data) with
      | .ok fs'' => Cache.store_data_packages rand fs'' rest
      | .error _ => Cache.store_data_packages rand fs' rest

/-- `Cache::load_data_packages` from `src/cache.rs`: for each
game→expected-checksum entry, read `datapackage/<game>/<checksum>.json`,
deserialize, and keep the game only when the embedded checksum matches;
every failure just skips the game. -/
def Cache.load_data_packages (fs : FileSystem)
    (checksums : List (String × String)) : List (String × GameData) :=
  checksums.foldl (fun data_packages p =>
    let (game, checksum) := p
    let path : FsPath := ["datapackage", game, checksum ++ ".json"]
    match fs.read path with
    | .error _ => data_packages
    | .ok (.raw _) => data_packages
    | .ok (.gameData data) =>
      if data.checksum = checksum then insertVal data_packages game data
      else data_packages) []

/-! ## Concrete fixtures

A small two-game multiworld in the shape of the spec's scenario S1: the
current player (team 0, slot 1) plays game `G`; the teammate in slot 2 plays
game `H`. -/

/-- The data package of game `G`: item `I = 100`, locations `L = 200` and
`L2 = 201`, checksum `"x"`. -/
def gdG : GameData := ⟨[("I", 100)], [("L", 200), ("L2", 201)], "x"⟩

/-- The data package of game `H`: item `J = 300`, location `M = 400`,
checksum `"y"`. -/
def gdH : GameData := ⟨[("J", 300)], [("M", 400)], "y"⟩

/-- The handshake `RoomInfo`: hint cost 100%, one hint point per check. -/
def roomInfo1 : RoomInfo :=
  ⟨(0, 6, 0), (0, 6, 0), [], false, ⟨.disabled, .disabled, .disabled⟩, 100, 1, "ABC"⟩

/-- The handshake `Connected`: two players, location 200 missing and 201
already checked. -/
def connected1 : Connected :=
  ⟨0, 1, [⟨0, 1, "Me", "me"⟩, ⟨0, 2, "You", "you"⟩], [200], [201],
    [(1, ⟨"me", "G", .player, []⟩), (2, ⟨"you", "H", .player, []⟩)], 0⟩

/-- The session state `Client::new` produces from the fixtures above (proved
reachable in `C7_counterexample`). -/
def st1 : ClientState :=
  { thisGame := ⟨"G", [(100, "I")], [(200, "L"), (201, "L2")]⟩
    server_version := (0, 6, 0)
    generator_version := (0, 6, 0)
    server_tags := []
    password_required := false
    permissions := ⟨.disabled, .disabled, .disabled⟩
    hint_cost_percentage := 100
    hint_points_per_check := 1
    hint_points := 0
    seed_name := "ABC"
    games := [("G", ⟨"G", [(100, "I")], [(200, "L"), (201, "L2")]⟩),
      ("H", ⟨"H", [(300, "J")], [(400, "M")]⟩)]
    groups := []
    players := [((0, 1), ⟨0, 1, "Me", "me", "G"⟩), ((0, 2), ⟨0, 2, "You", "you", "H"⟩)]
    player_key := (0, 1)
    teams := 0
    local_locations_checked := [(200, false), (201, true)] }

/-! ## Claim C1 -/

/-- C1: in the `LocationInfo` arm of `Client::update`, each entry should be
hydrated with the item resolved in the *receiver's* game.  The code instead
computes `receiver_game` from `sender.game()` (the current player's game):
for the entry `{item: 300, location: 200, player: 2}` — whose receiver, the
slot-2 teammate, plays game `H`, which defines item 300 — hydration looks
item 300 up in the current player's game `G` and fails with
`MissingItem {id: 300, game: "G"}`, even though the receiver's game `H`
resolves the item and the `debug_assert!` inside `hydrate_with_games`
(`receiver.game() == receiver_game.name()`) is violated by the arguments the
arm passes. -/
theorem C1_locationInfo_receiver_game :
    Client.hydrateLocationInfo st1 [⟨300, 200, 2, 0⟩] =
      some (.error (.protocolError (.missingItem 300 "G"))) ∧
    (st1.game_or_err "H" = .ok ⟨"H", [(300, "J")], [(400, "M")]⟩ ∧
      (Game.mk "H" [(300, "J")] [(400, "M")]).item_or_err 300 = .ok ⟨300, "J", "H"⟩) ∧
    LocatedItem.hydrateDebugAsserts ⟨300, 200, 2, 0⟩ ⟨0, 1, "Me", "me", "G"⟩
      ⟨0, 2, "You", "you", "H"⟩ st1.thisGame ⟨"G", [(100, "I")], [(200, "L"), (201, "L2")]⟩
      = false := by
  decide

/-! ## Claim C4 -/

/-- C4: starting from an empty cache root, `load({G: "x"})` is empty — but
after `store({G: data-with-checksum-"x"})` the file `datapackage/G/x.json`
does **not** exist and a subsequent `load({G: "x"})` is still empty:
`write_file_atomic` pops the last component off the path and never appends
the temporary basename it computes, so it attempts to write to the game's
cache *directory*, which fails with an is-a-directory error for every random
suffix; the store loop logs the failure and moves on without creating the
file. -/
theorem C4_store_never_creates_file :
    Cache.load_data_packages FileSystem.emptyRoot [("G", "x")] = [] ∧
    Cache.store_data_packages 7 FileSystem.emptyRoot [("G", gdG)] =
      ⟨[[], ["datapackage"], ["datapackage", "G"]], []⟩ ∧
    findVal (Cache.store_data_packages 7 FileSystem.emptyRoot [("G", gdG)]).files
      ["datapackage", "G", "x.json"] = none ∧
    Cache.load_data_packages
      (Cache.store_data_packages 7 FileSystem.emptyRoot [("G", gdG)]) [("G", "x")] = [] ∧
    ∀ rand : Nat,
      write_file_atomic rand ⟨[[], ["datapackage"], ["datapackage", "G"]], []⟩
        ["datapackage", "G", "x.json"] (.gameData gdG) = .error .isDirectory := by
  refine ⟨by decide, by decide, by decide, by decide, fun rand => rfl⟩

/-! ## Claim C7 -/

/-- C7 counterexample: in the session state reached from the S1-style
handshake (one of two local locations already checked, hint cost 100%),
`|checked(local)| * hint_cost_percentage / 100` is `1` while
`points_per_hint()` — computed by the code from *all* local locations — is
`2`, so the claimed equation fails on a reachable connected state. -/
theorem C7_counterexample :
    Client.new "G" roomInfo1 [("G", gdG), ("H", gdH)] connected1 = .ok st1 ∧
    ¬st1.checkedCount * st1.hint_cost_percentage / 100 = st1.points_per_hint := by
  decide

/-- C7 (amended): `points_per_hint()` equals
`|local_locations_checked| * hint_cost_percentage / 100` over *all* local
locations of the current game (checked or not), which is per §3 the size of
the local-locations map, and the checked-locations quantity of the original
claim is only a lower bound: `|checked(local)| * hint_cost_percentage / 100 ≤
points_per_hint()`. -/
theorem C7_amended (st : ClientState)
    (h : st.local_locations_checked.length * st.hint_cost_percentage < U64) :
    st.checkedCount * st.hint_cost_percentage / 100 ≤ st.points_per_hint ∧
    st.points_per_hint =
      st.local_locations_checked.length * st.hint_cost_percentage / 100 := by
  have hc : st.checkedCount ≤ st.local_locations_checked.length :=
    List.length_filter_le _ _
  unfold ClientState.points_per_hint
  rw [Nat.mod_eq_of_lt h]
  exact ⟨Nat.div_le_div_right (Nat.mul_le_mul_right _ hc), rfl⟩

/-- Witness for `C7_amended` at the reachable state `st1`. -/
theorem C7_amended_witness :
    st1.local_locations_checked.length * st1.hint_cost_percentage < U64 ∧
    st1.checkedCount * st1.hint_cost_percentage / 100 ≤ st1.points_per_hint :=
  ⟨by decide, (C7_amended st1 (by decide)).1⟩

/-! ## Claim C8 -/

/-- C8 counterexample: a URL without a scheme is **rejected** by
`Connection::new` (it goes straight to `Disconnected(NoProtocolError)`
without attempting any connection, TLS or otherwise), and on the
`Socket::connect` path reachable from `Connection::new` a missing port
defaults to 443 for `wss` (80 for `ws`), not 38281; `tungstenite`'s
`uri_mode` likewise errors on an absent scheme, so no TLS-then-plain probe
ever happens for a scheme-less URL. -/
theorem C8_counterexample :
    Connection.newUrlCheck "archipelago.gg" = .noProtocolError "archipelago.gg" ∧
    Socket.connectPort none (some "wss") = .ok 443 ∧
    Socket.connectPort none (some "ws") = .ok 80 ∧
    uriMode none = .error "UnsupportedUrlScheme" := by
  decide

/-- C8 (amended): the URL must carry an explicit `ws://` or `wss://` scheme —
`Connection::new` rejects any other URL with `NoProtocolError` before
touching the network.  A missing port defaults to 443/80 by scheme in the
`Socket::connect` path used by `Connection::new`, while the alternate
`NonBlockingWebSocket::connect` transport defaults it to 38281; and the
TLS-to-plain fallback exists only there and only for an explicit `wss`
scheme whose TLS handshake fails with a TLS error. -/
theorem C8_amended (url : String)
    (h1 : "ws://".data.isPrefixOf url.data = false)
    (h2 : "wss://".data.isPrefixOf url.data = false) :
    Connection.newUrlCheck url = .noProtocolError url ∧
    NonBlockingWebSocket.port none = 38281 ∧
    (∀ p, NonBlockingWebSocket.port (some p) = p) ∧
    NonBlockingWebSocket.selectStream .tls .tlsError = .ok .plain ∧
    NonBlockingWebSocket.selectStream .tls .success = .ok .nativeTls ∧
    NonBlockingWebSocket.selectStream .tls .otherError = .error "tls" ∧
    Socket.connectPort none (some "wss") = .ok 443 := by
  refine ⟨?_, rfl, fun p => rfl, rfl, rfl, rfl, rfl⟩
  simp [Connection.newUrlCheck, connectionNewAcceptsUrl, h1, h2]

/-- Witness for `C8_amended` at the scheme-less URL `"archipelago.gg:38281"`. -/
theorem C8_amended_witness :
    ("ws://".data.isPrefixOf "archipelago.gg:38281".data = false ∧
      "wss://".data.isPrefixOf "archipelago.gg:38281".data = false) ∧
    Connection.newUrlCheck "archipelago.gg:38281" =
      .noProtocolError "archipelago.gg:38281" :=
  ⟨⟨by decide, by decide⟩, (C8_amended "archipelago.gg:38281" (by decide) (by decide)).1⟩

/-! ## Claim C5 -/

theorem optionMapM_id_none {α : Type} (l : List (Option α)) (h : ∃ e ∈ l, e = none) :
    l.mapM id = none := by
  induction l with
  | nil => simp at h
  | cons e rest ih =>
    rcases h with ⟨x, hx, hxn⟩
    rcases List.mem_cons.mp hx with rfl | hx'
    · rw [hxn, List.mapM_cons]
      rfl
    · cases e with
      | none =>
        rw [List.mapM_cons]
        rfl
      | some a =>
        rw [List.mapM_cons, ih ⟨x, hx', hxn⟩]
        rfl

theorem optionMapM_id_some {α : Type} (l : List (Option α)) (h : ∀ e ∈ l, e.isSome) :
    l.mapM id = some (l.filterMap id) := by
  induction l with
  | nil => rfl
  | cons e rest ih =>
    rcases e with _ | a
    · exact absurd (h none (by simp)) (by simp)
    · rw [List.mapM_cons, ih (fun x hx => h x (by simp [hx]))]
      rfl

/-- C5 counterexample: in a frame holding one well-formed element followed by
one malformed element, decoding rejects the whole frame with a single
`Deserialize` error — the well-formed message is *not* delivered, contrary to
the claim. -/
theorem C5_counterexample :
    decodeFrame [some (0 : Nat), none] = .error (.deserialize "batch") ∧
    decodeFrame [some (0 : Nat), none] ≠ .ok [0] ∧
    Socket.try_recv ([] : List Nat) [[some 0, none]] =
      ([], [], .error (.deserialize "batch")) := by
  decide

/-- C5 (amended): a frame in which any element fails to decode is rejected
wholesale — `Socket::try_recv` reports one `Deserialize` error and delivers
none of that frame's messages (well-formed or not), while the remaining
frames are left to be decoded by later calls; a frame whose elements all
decode is delivered in full, in order. -/
theorem C5_amended {α : Type} (f : List (Option α)) (fs : List (List (Option α))) :
    ((∃ e ∈ f, e = none) →
      decodeFrame f = .error (.deserialize "batch") ∧
      Socket.try_recv ([] : List α) (f :: fs) =
        ([], fs, .error (.deserialize "batch"))) ∧
    ((∀ e ∈ f, e.isSome) → decodeFrame f = .ok (f.filterMap id)) := by
  constructor
  · intro h
    have hd : decodeFrame f = Except.error (.deserialize "batch") := by
      unfold decodeFrame
      rw [optionMapM_id_none f h]
    refine ⟨hd, ?_⟩
    cases f with
    | nil => simp at h
    | cons e rest => simp [Socket.try_recv, hd]
  · intro h
    unfold decodeFrame
    rw [optionMapM_id_some f h]

/-- Witness for `C5_amended`: the bad frame is dropped whole and the
following frame remains queued. -/
theorem C5_amended_witness :
    (∃ e ∈ [some (0 : Nat), none], e = none) ∧
    Socket.try_recv ([] : List Nat) [[some 0, none], [some 1]] =
      ([], [[some 1]], .error (.deserialize "batch")) :=
  ⟨by decide, ((C5_amended [some 0, none] [[some 1]]).1 (by decide)).2⟩

/-! ## Claim C9 -/

theorem connection_update_rank_le (s : ConnectionStateType)
    (inp : ConnectionUpdateInput) :
    s.rank ≤ ((Connection.update s inp).1).rank := by
  cases s with
  | connecting => exact Nat.zero_le _
  | connected =>
    by_cases h : inp.clientOk <;>
      simp [Connection.update, h, ConnectionStateType.rank]
  | disconnected => exact Nat.le_refl _

theorem connection_update_ne_connecting (s : ConnectionStateType)
    (inp : ConnectionUpdateInput) (hs : s ≠ .connecting) :
    (Connection.update s inp).1 ≠ .connecting := by
  cases s with
  | connecting => exact absurd rfl hs
  | connected =>
    by_cases h : inp.clientOk <;> simp [Connection.update, h]
  | disconnected => simp [Connection.update]

/-- C9: the connection state type never moves backwards in the order
`Connecting < Connected < Disconnected`: along any sequence of
`Connection::update` calls the rank of the state is monotone, a
`Disconnected` connection stays `Disconnected`, a `Connected` connection
never returns to `Connecting`, and every `ConnectionStateTransition` the
code returns has `old` strictly earlier than `new` in that order. -/
theorem C9_transitions_one_way :
    (∀ (s : ConnectionStateType) (inputs : List ConnectionUpdateInput),
      s.rank ≤ (Connection.run s inputs).rank) ∧
    (∀ inputs, Connection.run .disconnected inputs = .disconnected) ∧
    (∀ inputs, Connection.run .connected inputs ≠ .connecting) ∧
    (∀ (s : ConnectionStateType) (inp : ConnectionUpdateInput)
        (t : ConnectionStateTransition),
      (Connection.update s inp).2 = some t → t.old.rank < t.new.rank) := by
  have hrun : ∀ (inputs : List ConnectionUpdateInput) (s : ConnectionStateType),
      s.rank ≤ (Connection.run s inputs).rank := by
    intro inputs
    induction inputs with
    | nil => intro s; exact Nat.le_refl _
    | cons i rest ih =>
      intro s
      exact Nat.le_trans (connection_update_rank_le s i) (ih _)
  have hne : ∀ (inputs : List ConnectionUpdateInput) (s : ConnectionStateType),
      s ≠ .connecting → Connection.run s inputs ≠ .connecting := by
    intro inputs
    induction inputs with
    | nil => intro s hs; exact hs
    | cons i rest ih =>
      intro s hs
      exact ih _ (connection_update_ne_connecting s i hs)
  refine ⟨fun s inputs => hrun inputs s, ?_, fun inputs => hne inputs _ (by simp), ?_⟩
  · intro inputs
    induction inputs with
    | nil => rfl
    | cons i rest ih => exact ih
  · intro s inp t h
    cases s with
    | connecting =>
      by_cases hc : inp.connectingResult = .connecting
      · simp [Connection.update, hc] at h
      · simp only [Connection.update, if_neg hc] at h
        cases h
        cases hcr : inp.connectingResult <;>
          simp [hcr, ConnectionStateType.rank] at hc ⊢
    | connected =>
      by_cases hc : inp.clientOk
      · simp [Connection.update, hc] at h
      · simp only [Connection.update, hc, Bool.false_eq_true, if_false,
          Option.some.injEq] at h
        cases h
        decide
    | disconnected => simp [Connection.update] at h

/-- Witness for `C9_transitions_one_way`: a failing `client.update()` call in
the `Connected` state yields the `Connected → Disconnected` transition, whose
`old` is strictly earlier than its `new`. -/
theorem C9_transitions_one_way_witness :
    (Connection.update .connected ⟨false, .connecting⟩).2 =
      some ⟨.connected, .disconnected⟩ ∧
    (ConnectionStateTransition.mk .connected .disconnected).old.rank <
      (ConnectionStateTransition.mk .connected .disconnected).new.rank :=
  ⟨by decide,
    C9_transitions_one_way.2.2.2 .connected ⟨false, .connecting⟩
      ⟨.connected, .disconnected⟩ (by decide)⟩

/-! ## Claim C6 -/

/-- The FIFO invariant: the fulfilled request numbers followed by the queued
ones are exactly `0, 1, …, sent-1` in order. -/
def PendingInv (m : PendingState) : Prop :=
  m.resolved ++ m.queue = List.range m.sent

theorem pendingStep_inv (what : String) (m : PendingState) (e : PendingEvent)
    (h : PendingInv m) : PendingInv (pendingStep what m e) := by
  cases e with
  | request sendOk =>
    cases sendOk
    · exact h
    · unfold PendingInv pendingStep at *
      rw [← List.append_assoc, h, List.range_succ]
  | response =>
    unfold PendingInv at *
    cases hq : m.queue with
    | nil =>
      simp only [pendingStep, hq]
      rw [hq] at h
      simpa using h
    | cons r rest =>
      simp only [pendingStep, hq]
      rw [hq] at h
      rw [List.append_assoc]
      simpa using h

theorem pendingRun_inv (what : String) (es : List PendingEvent) :
    PendingInv (pendingRun what es) := by
  suffices hsuf : ∀ m : PendingState,
      PendingInv m → PendingInv (es.foldl (pendingStep what) m) from
    hsuf _ rfl
  induction es with
  | nil => exact fun m hm => hm
  | cons e rest ih => exact fun m hm => ih _ (pendingStep_inv what m e hm)

theorem pendingRun_append_one (what : String) (es : List PendingEvent)
    (e : PendingEvent) :
    pendingRun what (es ++ [e]) = pendingStep what (pendingRun what es) e := by
  unfold pendingRun
  rw [List.foldl_append]
  rfl

/-- C6: both pending-completion queues are FIFO.  With requests numbered in
send order, the sequence of fulfilled request numbers is always
`0, 1, …, k-1` — the `i`-th response fulfills the `i`-th successfully-sent
request, for the scout queue (`what = "LocationInfo"`) and the get queue
(`what = "Get"`) alike; a response popping a non-empty queue fulfills
exactly its front entry, and a response arriving at an empty queue adds a
`ResponseWithoutRequest` protocol error and fulfills nothing. -/
theorem C6_fifo_completions :
    (∀ (what : String) (es : List PendingEvent),
      (pendingRun what es).resolved =
        List.range (pendingRun what es).resolved.length) ∧
    (∀ (what : String) (es : List PendingEvent),
      (pendingRun what es).queue = [] →
      pendingRun what (es ++ [.response]) =
        { pendingRun what es with
            errors := (pendingRun what es).errors ++
              [.responseWithoutRequest what] }) ∧
    (∀ (what : String) (es : List PendingEvent) (r : Nat) (rest : List Nat),
      (pendingRun what es).queue = r :: rest →
      pendingRun what (es ++ [.response]) =
        { pendingRun what es with
            queue := rest,
            resolved := (pendingRun what es).resolved ++ [r] }) := by
  refine ⟨?_, ?_, ?_⟩
  · intro what es
    have h := pendingRun_inv what es
    unfold PendingInv at h
    have hlen : (pendingRun what es).resolved.length ≤ (pendingRun what es).sent := by
      have hlen' := congrArg List.length h
      simp only [List.length_append, List.length_range] at hlen'
      omega
    calc (pendingRun what es).resolved
        = ((pendingRun what es).resolved ++ (pendingRun what es).queue).take
            (pendingRun what es).resolved.length := (List.take_left _ _).symm
      _ = (List.range (pendingRun what es).sent).take
            (pendingRun what es).resolved.length := by rw [h]
      _ = List.range (min (pendingRun what es).resolved.length
            (pendingRun what es).sent) := List.take_range _ _
      _ = List.range (pendingRun what es).resolved.length := by
            rw [Nat.min_eq_left hlen]
  · intro what es hq
    rw [pendingRun_append_one]
    simp [pendingStep, hq]
  · intro what es r rest hq
    rw [pendingRun_append_one]
    simp [pendingStep, hq]

/-- Witness for `C6_fifo_completions`: after one successful scout request the
queue holds request 0 and the next `LocationInfo` fulfills it; a `Retrieved`
on the empty get queue yields `ResponseWithoutRequest("Get")`. -/
theorem C6_fifo_completions_witness :
    ((pendingRun "LocationInfo" [.request true]).queue = 0 :: []) ∧
    pendingRun "LocationInfo" ([.request true] ++ [.response]) =
      { pendingRun "LocationInfo" [.request true] with
          queue := [],
          resolved := (pendingRun "LocationInfo" [.request true]).resolved ++ [0] } ∧
    pendingRun "Get" ([] ++ [.response]) =
      { pendingRun "Get" [] with
          errors := (pendingRun "Get" []).errors ++ [.responseWithoutRequest "Get"] } :=
  ⟨by decide,
    C6_fifo_completions.2.2 "LocationInfo" [.request true] 0 [] (by decide),
    C6_fifo_completions.2.1 "Get" [] (by decide)⟩

/-! ## Claim C2 -/

theorem locationOrErrP_ok_hasLocation (g : Game) (id : Int) (loc : Location)
    (h : g.locationOrErrP id = .ok loc) : g.hasLocation id = true := by
  unfold Game.locationOrErrP at h
  cases hl : g.location? id with
  | none => rw [hl] at h; exact absurd h (by simp)
  | some l =>
    unfold Game.location? at hl
    unfold Game.hasLocation
    cases hf : findVal g.locations id with
    | none => rw [hf] at hl; simp at hl
    | some n => simp

theorem mapM_locationOrErrP_ok_hasLocation (g : Game) (ids : List Int)
    (locs : List Location) (h : ids.mapM g.locationOrErrP = .ok locs) :
    ∀ id ∈ ids, g.hasLocation id = true := by
  induction ids generalizing locs with
  | nil => simp
  | cons i rest ih =>
    rw [List.mapM_cons] at h
    cases hl : g.locationOrErrP i with
    | error e =>
      rw [hl] at h
      exact absurd h (fun hh => Except.noConfusion hh)
    | ok loc =>
      rw [hl] at h
      cases hr : rest.mapM g.locationOrErrP with
      | error e =>
        rw [hr] at h
        exact absurd h (fun hh => Except.noConfusion hh)
      | ok ls =>
        intro id hid
        rcases List.mem_cons.mp hid with rfl | hid'
        · exact locationOrErrP_ok_hasLocation g id loc hl
        · exact ih ls hr id hid'

theorem mapM_locationOrErrP_error (g : Game) (ids : List Int)
    (h : ∃ id ∈ ids, g.hasLocation id = false) :
    ∃ e, ids.mapM g.locationOrErrP = .error e := by
  cases hm : ids.mapM g.locationOrErrP with
  | error e => exact ⟨e, rfl⟩
  | ok locs =>
    rcases h with ⟨id, hid, hfalse⟩
    have := mapM_locationOrErrP_ok_hasLocation g ids locs hm id hid
    rw [hfalse] at this
    exact absurd this (by simp)

theorem validateRoomPlayers_error (st : ClientState) (ps : List NetworkPlayer)
    (h : ∃ p ∈ ps, findVal st.players (p.team, p.slot) = none) :
    ∃ e, validateRoomPlayers st ps = .error e := by
  induction ps with
  | nil => simp at h
  | cons q rest ih =>
    rcases h with ⟨p, hp, hnone⟩
    rcases List.mem_cons.mp hp with rfl | hp'
    · refine ⟨.missingPlayer p.team p.slot, ?_⟩
      unfold validateRoomPlayers
      rw [hnone]
    · cases hq : findVal st.players (q.team, q.slot) with
      | none =>
        refine ⟨.missingPlayer q.team q.slot, ?_⟩
        unfold validateRoomPlayers
        rw [hq]
      | some old =>
        rcases ih ⟨p, hp', hnone⟩ with ⟨e, he⟩
        refine ⟨e, ?_⟩
        unfold validateRoomPlayers
        rw [hq, he]
        rfl

/-- C2: a `RoomUpdate` carrying any `checked_locations` id that is not a
location of the current game, or any `players` entry whose `(team, slot)` is
unknown, fails validation before any mutation: `update_room` returns a
protocol error with the entire session state exactly as it was (so no
`Event::Updated` is produced and `server_tags`, `permissions`,
`hint_cost_percentage`, `hint_points_per_check`, `hint_points`, `players`
and `local_locations_checked` are all unchanged). -/
theorem C2_room_update_all_or_nothing (st : ClientState) (u : RoomUpdate)
    (h : (∃ id ∈ u.checked_locations.getD [], st.thisGame.hasLocation id = false) ∨
      (∃ p ∈ u.players.getD [], findVal st.players (p.team, p.slot) = none)) :
    ∃ e, Client.update_room st u = .err st e := by
  cases hcm : u.checked_locations.mapM
      (fun ids => ids.mapM st.thisGame.locationOrErrP) with
  | error e =>
    refine ⟨e, ?_⟩
    unfold Client.update_room
    rw [hcm]
  | ok co =>
    -- the checked-locations phase passed, so the invalid input is a player
    have hps : ∃ p ∈ u.players.getD [], findVal st.players (p.team, p.slot) = none := by
      rcases h with hloc | hps
      · exfalso
        rcases hloc with ⟨id, hid, hfalse⟩
        cases hc : u.checked_locations with
        | none => rw [hc] at hid; simp at hid
        | some ids =>
          rw [hc] at hcm hid
          simp only [Option.getD_some] at hid
          rcases mapM_locationOrErrP_error st.thisGame ids ⟨id, hid, hfalse⟩ with ⟨e, he⟩
          rw [Option.mapM, he] at hcm
          exact absurd hcm (by simp [Except.map])
      · exact hps
    rcases hp : u.players with _ | ps
    · rw [hp] at hps; simp at hps
    · rw [hp] at hps
      simp only [Option.getD_some] at hps
      rcases validateRoomPlayers_error st ps hps with ⟨e, he⟩
      refine ⟨e, ?_⟩
      unfold Client.update_room
      rw [hcm, hp, Option.mapM, he]
      rfl

/-- Witness for `C2_room_update_all_or_nothing`: a `RoomUpdate` with fresh
tags but an unknown player `(0, 9)` leaves `st1` untouched and produces a
`MissingPlayer` protocol error instead of an `Event::Updated`. -/
theorem C2_room_update_all_or_nothing_witness :
    ((∃ id ∈ (RoomUpdate.mk (some ["x"]) none none none none
        (some [⟨0, 9, "A", "a"⟩]) none).checked_locations.getD [],
        st1.thisGame.hasLocation id = false) ∨
      (∃ p ∈ (RoomUpdate.mk (some ["x"]) none none none none
        (some [⟨0, 9, "A", "a"⟩]) none).players.getD [],
        findVal st1.players (p.team, p.slot) = none)) ∧
    ∃ e, Client.update_room st1
      ⟨some ["x"], none, none, none, none, some [⟨0, 9, "A", "a"⟩], none⟩ =
        .err st1 e :=
  ⟨by decide,
    C2_room_update_all_or_nothing st1
      ⟨some ["x"], none, none, none, none, some [⟨0, 9, "A", "a"⟩], none⟩ (by decide)⟩

/-! ## Claim C3 -/

theorem U64_pos : 0 < U64 := by norm_num [U64]

/-- The number of previously-unchecked ids among `L`: entries of the local
map whose value is `false` and whose key occurs in `L` (duplicates in `L`
count once because the map's keys are unique). -/
def countFalseIn (m : List (Int × Bool)) (L : List Int) : Nat :=
  m.countP (fun p => !p.2 && decide (p.1 ∈ L))

theorem countFalseIn_cons_not_mem (m : List (Int × Bool)) (id : Int)
    (rest : List Int) (h : id ∉ keysOf m) :
    countFalseIn m (id :: rest) = countFalseIn m rest := by
  induction m with
  | nil => rfl
  | cons p m' ih =>
    simp only [keysOf_cons, List.mem_cons, not_or] at h
    have hp : ¬p.1 = id := fun hh => h.1 hh.symm
    have hmem : decide (p.1 ∈ id :: rest) = decide (p.1 ∈ rest) := by
      simp [List.mem_cons, hp]
    unfold countFalseIn at *
    rw [List.countP_cons, List.countP_cons, ih h.2, hmem]

theorem countFalseIn_insert_true (m : List (Int × Bool)) (id : Int)
    (rest : List Int) (hn : (keysOf m).Nodup) :
    countFalseIn m (id :: rest) =
      countFalseIn (insertVal m id true) rest +
        (if findVal m id = some false then 1 else 0) := by
  induction m with
  | nil => simp [countFalseIn]
  | cons p m' ih =>
    obtain ⟨hpk, hnk⟩ := List.nodup_cons.mp hn
    by_cases hp : p.1 = id
    · subst hp
      have hIns : insertVal (p :: m') p.1 true = (p.1, true) :: m' := by
        simp
      have hFind : findVal (p :: m') p.1 = some p.2 := by simp
      rw [hIns, hFind]
      have hA := countFalseIn_cons_not_mem m' p.1 rest hpk
      unfold countFalseIn at *
      rw [List.countP_cons, List.countP_cons, hA]
      have hhead : decide (p.1 ∈ p.1 :: rest) = true := by simp
      rw [hhead]
      cases hpv : p.2 <;> simp
    · have hIns : insertVal (p :: m') id true = p :: insertVal m' id true := by
        simp [hp]
      have hFind : findVal (p :: m') id = findVal m' id := by simp [hp]
      rw [hIns, hFind]
      have hmem : decide (p.1 ∈ id :: rest) = decide (p.1 ∈ rest) := by
        simp [List.mem_cons, hp]
      unfold countFalseIn at *
      rw [List.countP_cons, List.countP_cons, ih hnk, hmem]
      omega

theorem markLoop_points (c : Nat) (L : List Int) (m : List (Int × Bool))
    (pts : Nat) (hn : (keysOf m).Nodup) (hp : pts < U64) :
    (ClientState.markLoop c L (m, pts)).2 = (pts + c * countFalseIn m L) % U64 := by
  induction L generalizing m pts with
  | nil =>
    unfold ClientState.markLoop countFalseIn
    simp [Nat.mod_eq_of_lt hp]
  | cons id rest ih =>
    unfold ClientState.markLoop
    have hins : (keysOf (insertVal m id true)).Nodup :=
      nodup_keysOf_insertVal m id true hn
    have hcnt := countFalseIn_insert_true m id rest hn
    by_cases h : findVal m id = some false
    · rw [if_pos h]
      rw [ih (insertVal m id true) ((pts + c) % U64) hins (Nat.mod_lt _ U64_pos)]
      rw [hcnt, if_pos h, Nat.mod_add_mod]
      congr 1
      ring
    · rw [if_neg h]
      rw [ih (insertVal m id true) pts hins hp, hcnt, if_neg h]
      simp

theorem markLoop_lookup_preserved (c : Nat) (L : List Int)
    (m : List (Int × Bool)) (pts : Nat) (l : Int) (h : findVal m l = some true) :
    findVal (ClientState.markLoop c L (m, pts)).1 l = some true := by
  induction L generalizing m pts with
  | nil => exact h
  | cons id rest ih =>
    unfold ClientState.markLoop
    apply ih
    by_cases hl : l = id
    · subst hl
      exact findVal_insertVal_self m l true
    · rw [findVal_insertVal_ne m id l true hl]
      exact h

theorem markLoop_lookup_mem (c : Nat) (L : List Int) (m : List (Int × Bool))
    (pts : Nat) (l : Int) (h : l ∈ L) :
    findVal (ClientState.markLoop c L (m, pts)).1 l = some true := by
  induction L generalizing m pts with
  | nil => simp at h
  | cons id rest ih =>
    unfold ClientState.markLoop
    rcases List.mem_cons.mp h with rfl | h'
    · exact markLoop_lookup_preserved c rest _ _ l (findVal_insertVal_self m l true)
    · exact ih _ _ h'

theorem verify_local_locations_ok_hasLocation (st : ClientState) (L : List Int)
    (locs : List Int) (h : st.verify_local_locations L = .ok locs) :
    ∀ l ∈ L, st.thisGame.hasLocation l = true := by
  induction L generalizing locs with
  | nil => simp
  | cons i rest ih =>
    unfold ClientState.verify_local_locations at h ih
    rw [List.mapM_cons] at h
    by_cases hi : st.thisGame.hasLocation i
    · rw [show st.verifyLocalLocation i = .ok i by
          unfold ClientState.verifyLocalLocation; rw [if_pos hi]] at h
      cases hr : rest.mapM st.verifyLocalLocation with
      | error e =>
        rw [hr] at h
        exact absurd h (fun hh => Except.noConfusion hh)
      | ok ls =>
        intro l hl
        rcases List.mem_cons.mp hl with rfl | hl'
        · exact hi
        · exact ih ls hr l hl'
    · rw [show st.verifyLocalLocation i =
            .error (.invalidLocation i st.thisGame.name) by
          unfold ClientState.verifyLocalLocation; rw [if_neg hi]] at h
      exact absurd h (fun hh => Except.noConfusion hh)

theorem verify_local_locations_ok (st : ClientState) (L : List Int)
    (h : ∀ l ∈ L, st.thisGame.hasLocation l = true) :
    st.verify_local_locations L = .ok L := by
  unfold ClientState.verify_local_locations
  induction L with
  | nil => rfl
  | cons l rest ih =>
    rw [List.mapM_cons,
      show st.verifyLocalLocation l = .ok l by
        unfold ClientState.verifyLocalLocation
        rw [if_pos (h l (List.mem_cons_self l rest))],
      ih (fun l' hl' => h l' (List.mem_cons_of_mem l hl'))]
    rfl

theorem verify_local_locations_error (st : ClientState) (L : List Int)
    (h : ∃ l ∈ L, st.thisGame.hasLocation l = false) :
    ∃ e, st.verify_local_locations L = .error e := by
  cases hv : st.verify_local_locations L with
  | error e => exact ⟨e, rfl⟩
  | ok locs =>
    rcases h with ⟨l, hl, hfalse⟩
    have := verify_local_locations_ok_hasLocation st L locs hv l hl
    rw [hfalse] at this
    exact absurd this (by simp)

/-- C3: `mark_checked(L)` validates every id against the current game first.
If some id is invalid it returns `ArgumentError::InvalidLocation`, sends
nothing and leaves the state untouched.  If all ids are valid it sends one
`LocationChecks` message carrying exactly `L`, after which every `l ∈ L`
satisfies `is_local_location_checked(l) = true`, and `hint_points` has grown
by `k * hint_points_per_check` (in wrapping `u64` arithmetic, hence exactly
when no overflow occurs) where `k = countFalseIn … L` is the number of
previously-unchecked ids in `L`. -/
theorem C3_mark_checked (st : ClientState) (L : List Int)
    (hkeys : (keysOf st.local_locations_checked).Nodup)
    (hpts : st.hint_points < U64) :
    ((∃ l ∈ L, st.thisGame.hasLocation l = false) →
      ∃ e, ClientState.mark_checked st L = (st, none, some e)) ∧
    ((∀ l ∈ L, st.thisGame.hasLocation l = true) →
      (ClientState.mark_checked st L).2.1 = some L ∧
      (ClientState.mark_checked st L).2.2 = none ∧
      (∀ l ∈ L,
        ((ClientState.mark_checked st L).1).is_local_location_checked l = some true) ∧
      ((ClientState.mark_checked st L).1).hint_points =
        (st.hint_points +
          st.hint_points_per_check * countFalseIn st.local_locations_checked L) % U64 ∧
      (st.hint_points +
          st.hint_points_per_check * countFalseIn st.local_locations_checked L < U64 →
        ((ClientState.mark_checked st L).1).hint_points =
          st.hint_points +
            st.hint_points_per_check * countFalseIn st.local_locations_checked L)) := by
  constructor
  · intro h
    rcases verify_local_locations_error st L h with ⟨e, he⟩
    refine ⟨e, ?_⟩
    unfold ClientState.mark_checked
    rw [he]
  · intro h
    have hok := verify_local_locations_ok st L h
    have hpoints :=
      markLoop_points st.hint_points_per_check L st.local_locations_checked
        st.hint_points hkeys hpts
    have hmc : ClientState.mark_checked st L =
        ({ st with
            local_locations_checked :=
              (ClientState.markLoop st.hint_points_per_check L
                (st.local_locations_checked, st.hint_points)).1,
            hint_points :=
              (ClientState.markLoop st.hint_points_per_check L
                (st.local_locations_checked, st.hint_points)).2 },
          some L, none) := by
      unfold ClientState.mark_checked
      rw [hok]
    rw [hmc]
    refine ⟨rfl, rfl, ?_, hpoints, ?_⟩
    · intro l hl
      unfold ClientState.is_local_location_checked
      exact markLoop_lookup_mem st.hint_points_per_check L
        st.local_locations_checked st.hint_points l hl
    · intro hlt
      rw [hpoints, Nat.mod_eq_of_lt hlt]

/-- Witness for `C3_mark_checked`: marking location 200 in `st1` sends
`LocationChecks([200])` and credits one hint point (200 was unchecked,
`hint_points_per_check = 1`). -/
theorem C3_mark_checked_witness :
    ((keysOf st1.local_locations_checked).Nodup ∧ st1.hint_points < U64 ∧
      (∀ l ∈ [(200 : Int)], st1.thisGame.hasLocation l = true)) ∧
    (ClientState.mark_checked st1 [200]).2.1 = some [200] ∧
    ((ClientState.mark_checked st1 [200]).1).hint_points =
      (st1.hint_points +
        st1.hint_points_per_check * countFalseIn st1.local_locations_checked [200]) % U64 :=
  ⟨⟨by decide, by decide, by decide⟩,
    ((C3_mark_checked st1 [200] (by decide) (by decide)).2 (by decide)).1,
    ((C3_mark_checked st1 [200] (by decide) (by decide)).2 (by decide)).2.2.2.1⟩

/-! ## Claim C10 -/

theorem dedupe_none_iff (locs : List Location) (m : List (Int × Bool)) :
    dedupeCheckedLocations m locs = none ↔
      ∃ loc ∈ locs, findVal m loc.id = none := by
  induction locs generalizing m with
  | nil => simp [dedupeCheckedLocations]
  | cons loc rest ih =>
    unfold dedupeCheckedLocations
    cases ho : findVal m loc.id with
    | none =>
      constructor
      · intro _
        exact ⟨loc, List.mem_cons_self _ _, ho⟩
      · intro _
        rfl
    | some prev =>
      have hiff : ∀ k : Int,
          findVal (insertVal m loc.id true) k = none ↔ findVal m k = none := by
        intro k
        by_cases hk : k = loc.id
        · subst hk
          rw [findVal_insertVal_self]
          simp [ho]
        · rw [findVal_insertVal_ne m loc.id k true hk]
      cases hd : dedupeCheckedLocations (insertVal m loc.id true) rest with
      | none =>
        constructor
        · intro _
          rcases (ih _).mp hd with ⟨loc', hmem, hnone⟩
          exact ⟨loc', List.mem_cons_of_mem _ hmem, (hiff loc'.id).mp hnone⟩
        · intro _
          rfl
      | some pair =>
        obtain ⟨m'', kept⟩ := pair
        constructor
        · intro hcontra
          exact absurd hcontra (by simp)
        · rintro ⟨loc', hmem, hnone⟩
          exfalso
          rcases List.mem_cons.mp hmem with rfl | hmem'
          · rw [ho] at hnone
            exact Option.noConfusion hnone
          · have hcontr : dedupeCheckedLocations (insertVal m loc.id true) rest = none :=
              (ih _).mpr ⟨loc', hmem', (hiff loc'.id).mpr hnone⟩
            rw [hd] at hcontr
            exact Option.noConfusion hcontr

theorem mapM_locationOrErrP_ok_of_valid (g : Game) (L : List Int)
    (h : ∀ id ∈ L, g.hasLocation id = true) :
    ∃ locs, L.mapM g.locationOrErrP = .ok locs ∧ locs.map Location.id = L := by
  induction L with
  | nil => exact ⟨[], rfl, rfl⟩
  | cons i rest ih =>
    rcases ih (fun id hid => h id (List.mem_cons_of_mem i hid)) with ⟨locs, hm, hids⟩
    have hi := h i (List.mem_cons_self i rest)
    unfold Game.hasLocation at hi
    cases hf : findVal g.locations i with
    | none =>
      rw [hf] at hi
      exact absurd hi (by simp)
    | some n =>
      refine ⟨⟨i, n, g.name⟩ :: locs, ?_, by simp [hids]⟩
      have hone : g.locationOrErrP i = .ok ⟨i, n, g.name⟩ := by
        unfold Game.locationOrErrP Game.location?
        rw [hf]
        rfl
      rw [List.mapM_cons, hone, hm]
      rfl

/-- C10: with a `RoomUpdate` whose `checked_locations` ids are all locations
of the current game, `update_room` is panic-free exactly when every such id
is a key of `local_locations_checked` (i.e. was listed in the handshake's
`missing_locations` or `checked_locations`); if the game's data package
defines some id that appeared in neither list, the dedupe step's
`insert(..).unwrap()` finds no previous value and panics instead of
returning an error. -/
theorem C10_room_update_dedupe (st : ClientState) (L : List Int)
    (hvalid : ∀ id ∈ L, st.thisGame.hasLocation id = true) :
    Client.update_room st ⟨none, none, none, none, none, none, some L⟩ =
        .panicked ↔
      ∃ id ∈ L, findVal st.local_locations_checked id = none := by
  rcases mapM_locationOrErrP_ok_of_valid st.thisGame L hvalid with ⟨locs, hm, hids⟩
  have hmem_iff :
      (∃ loc ∈ locs, findVal st.local_locations_checked loc.id = none) ↔
        ∃ id ∈ L, findVal st.local_locations_checked id = none := by
    constructor
    · rintro ⟨loc, hmem, hnone⟩
      refine ⟨loc.id, ?_, hnone⟩
      rw [← hids]
      exact List.mem_map_of_mem _ hmem
    · rintro ⟨id, hid, hnone⟩
      rw [← hids] at hid
      rcases List.mem_map.mp hid with ⟨loc, hmem, heq⟩
      exact ⟨loc, hmem, by rw [heq]; exact hnone⟩
  have hred : Client.update_room st ⟨none, none, none, none, none, none, some L⟩ =
      (match dedupeCheckedLocations st.local_locations_checked locs with
        | none => UpdateRoomResult.panicked
        | some (m, kept) =>
          UpdateRoomResult.ok { st with local_locations_checked := m }
            [UpdatedField.checkedLocations kept]) := by
    unfold Client.update_room
    rw [show Option.mapM (fun ids => ids.mapM st.thisGame.locationOrErrP)
        (some L) = Except.ok (some locs) from by rw [Option.mapM, hm]; rfl]
    rfl
  rw [hred]
  cases hd : dedupeCheckedLocations st.local_locations_checked locs with
  | none =>
    exact ⟨fun _ => hmem_iff.mp ((dedupe_none_iff locs st.local_locations_checked).mp hd),
      fun _ => rfl⟩
  | some pair =>
    obtain ⟨m, kept⟩ := pair
    constructor
    · intro hcontra
      exact UpdateRoomResult.noConfusion hcontra
    · intro hids'
      exfalso
      have hcontr : dedupeCheckedLocations st.local_locations_checked locs = none :=
        (dedupe_none_iff locs st.local_locations_checked).mpr (hmem_iff.mpr hids')
      rw [hd] at hcontr
      exact Option.noConfusion hcontr

/-- Witness for `C10_room_update_dedupe`: in a session whose local map lost
the entry for location 201 (valid in game `G` but listed in neither
handshake list), a `RoomUpdate` checking 201 panics. -/
theorem C10_room_update_dedupe_witness :
    (∀ id ∈ [(201 : Int)],
      ({ st1 with local_locations_checked := [(200, false)] } : ClientState
        ).thisGame.hasLocation id = true) ∧
    Client.update_room { st1 with local_locations_checked := [(200, false)] }
      ⟨none, none, none, none, none, none, some [201]⟩ = .panicked :=
  ⟨by decide,
    (C10_room_update_dedupe { st1 with local_locations_checked := [(200, false)] }
      [201] (by decide)).mpr ⟨201, by decide, by decide⟩⟩

end Archipelago
